import Mathlib

/-!
Shallow embedding of `src/script.js` (barcode-pro): the code-sequence
generators (`generateBarcodeData`, `handleProcessText`), the two PDF layout
computations (`handleStandardPdfExport`, `handleUnitedPdfExport`), the preview
and SVG-ZIP per-item render loops, and the JS string/number primitives they
rely on (`parseInt`, `Number`, `parseFloat`, `trim`, `split`, `padStart`).

JS numbers are modelled as exact rationals (an unnormalized pair
`JRat`, plus `Infinity`/`-Infinity` in `JNum`; `NaN` is `Option.none` at the
parser boundary).  IEEE-754 rounding and overflow of doubles are not modelled;
all values exercised by the theorems below are small integers or short decimal
fractions, where exact rational arithmetic and double arithmetic agree.
Unbounded loops (`for (let i = start; i <= end; i += inc)`) are embedded with
explicit fuel; `none` means the fuel ran out, and non-termination of the JS
loop is expressed as `∀ fuel, ... = none`.
-/

namespace BarcodePro

/-! ## JS string primitives -/

/-- The whitespace characters recognized by JS `trim` / `parseInt` /
`parseFloat` (ASCII fragment; exotic Unicode space characters are not
modelled, no input in this development contains them). -/
def isJsWhitespace (c : Char) : Bool :=
  c = ' ' || c = '\t' || c = '\n' || c = '\r' || c = '\x0b' || c = '\x0c'

/-- JS `String.prototype.trim` on a list of characters. -/
def trimChars (l : List Char) : List Char :=
  ((l.dropWhile isJsWhitespace).reverse.dropWhile isJsWhitespace).reverse

/-- JS `String.prototype.trim`. -/
def jsTrim (s : String) : String :=
  String.mk (trimChars s.data)

/-- JS `String.prototype.split` with a single-character separator, on lists of
characters.  Like JS (and unlike some split conventions) it keeps empty
fragments: `"-".split('-') = ["", ""]`, `"".split(':') = [""]`. -/
def splitOnCharL (sep : Char) : List Char → List (List Char)
  | [] => [[]]
  | c :: rest =>
    match splitOnCharL sep rest with
    | [] => [[c]]
    | h :: t => if c = sep then [] :: h :: t else (c :: h) :: t

/-- ASCII `toLowerCase` on one character (the JS method is Unicode-aware; the
keys used by the program are plain ASCII). -/
def toLowerAsciiChar (c : Char) : Char :=
  if 'A' ≤ c ∧ c ≤ 'Z' then Char.ofNat (c.toNat + 32) else c

/-- ASCII `String.prototype.toLowerCase` on a list of characters. -/
def toLowerAscii (l : List Char) : List Char :=
  l.map toLowerAsciiChar

/-- JS `String.prototype.padStart(width, '0')`: left-pad with `'0'` up to
`width` characters; a string already at least `width` long is unchanged. -/
def padStartZero (width : ℕ) (s : String) : String :=
  if width ≤ s.length then s
  else String.mk (List.replicate (width - s.length) '0') ++ s

/-- Decimal digit test (`'0'..'9'`). -/
def isDigit10 (c : Char) : Bool :=
  '0' ≤ c && c ≤ '9'

/-- Numeric value of a decimal digit character. -/
def digitVal (c : Char) : ℕ := c.toNat - 48

/-- Value of a list of decimal digit characters (most significant first). -/
def digitsToNat (l : List Char) : ℕ :=
  l.foldl (fun a c => a * 10 + digitVal c) 0

/-! ## JS numbers

`JRat` is an exact, unnormalized rational: the value is `num / den` with
`den` a positive natural at every construction site.  `JNum` adds the two
infinities.  `NaN` never needs a representation of its own: every JS
expression of the program that can be `NaN` is modelled as an
`Option JNum` (or `Option ℤ`) being `none`. -/

structure JRat where
  num : ℤ
  den : ℕ
  deriving DecidableEq, Repr

/-- A JS number: finite exact rational, `Infinity`, or `-Infinity`. -/
inductive JNum where
  | fin (q : JRat)
  | inf
  | negInf
  deriving DecidableEq, Repr

def JRat.ofInt (n : ℤ) : JRat := ⟨n, 1⟩

/-- Addition `q + k` for an integer `k` (the only addition the generation loop needs:
`i += increment` with `increment` produced by `parseInt`). -/
def JRat.addInt (q : JRat) (k : ℤ) : JRat :=
  ⟨q.num + k * (q.den : ℤ), q.den⟩

/-- JS `<=` on two finite numbers (cross-multiplication; denominators are
positive at every construction site). -/
def JRat.leB (a b : JRat) : Bool :=
  a.num * (b.den : ℤ) ≤ b.num * (a.den : ℤ)

/-- JS `<` on two finite numbers. -/
def JRat.ltB (a b : JRat) : Bool :=
  a.num * (b.den : ℤ) < b.num * (a.den : ℤ)

/-- The mathematical value of a `JRat`. -/
def JRat.toRat (q : JRat) : ℚ := (q.num : ℚ) / (q.den : ℕ)

/-- JS `a <= b` on numbers (no `NaN`: the program compares only values that
passed the `isNaN` checks). -/
def JNum.leB : JNum → JNum → Bool
  | .fin a, .fin b => a.leB b
  | .negInf, _ => true
  | _, .inf => true
  | .inf, .fin _ => false
  | .inf, .negInf => false
  | .fin _, .negInf => false

/-- JS `a > b` on numbers. -/
def JNum.gtB : JNum → JNum → Bool
  | .fin a, .fin b => b.ltB a
  | .inf, .fin _ => true
  | .inf, .negInf => true
  | _, .inf => false
  | .negInf, .fin _ => false
  | .negInf, .negInf => false
  | .fin _, .negInf => true

/-- JS `i + k` for integer `k` (`Infinity + k = Infinity`). -/
def JNum.addInt : JNum → ℤ → JNum
  | .fin q, k => .fin (q.addInt k)
  | .inf, _ => .inf
  | .negInf, _ => .negInf

/-- JS `x * n` for a positive natural scale factor (used for the `* 72`
inch-to-point conversions; `Infinity * 72 = Infinity`). -/
def JNum.scaleNat : JNum → ℕ → JNum
  | .fin q, n => .fin ⟨q.num * n, q.den⟩
  | .inf, _ => .inf
  | .negInf, _ => .negInf

/-- Fractional digits of `rem / den` (long division, most significant first),
stopping when the remainder reaches 0 or the fuel runs out.  Every value fed
to it in this development has a terminating decimal expansion shorter than the
fuel used. -/
def fracDigitChars (den : ℕ) : ℕ → ℕ → List Char
  | 0, _ => []
  | _ + 1, 0 => []
  | fuel + 1, rem =>
    Char.ofNat (48 + rem * 10 / den) :: fracDigitChars den fuel (rem * 10 % den)

/-- JS `String(x)` for a finite number with a terminating decimal expansion:
minimal decimal form, no trailing zeros, `"-"` sign for negatives
(`String(-0)` is `"0"`, matched here because the parsers never produce a
negative zero numerator).  JS prints the shortest round-trip decimal of the
double; on the exact rationals produced by parsing short decimal literals the
two agree. -/
def JRat.toJsString (q : JRat) : String :=
  let a := q.num.natAbs
  let sgn : String := if q.num < 0 then "-" else ""
  if a % q.den = 0 then sgn ++ Nat.repr (a / q.den)
  else
    sgn ++ Nat.repr (a / q.den) ++ "." ++ String.mk (fracDigitChars q.den q.den (a % q.den))

/-- JS `String(x)` on a number. -/
def JNum.toJsString : JNum → String
  | .fin q => q.toJsString
  | .inf => "Infinity"
  | .negInf => "-Infinity"

/-! ## JS number parsing -/

/-- JS `parseInt(s, 10)`: skip leading whitespace, optional sign, then the
longest prefix of decimal digits; `none` (JS `NaN`) when there is no digit.
Trailing garbage is ignored (`parseInt("3abc") = 3`).  The model returns the
exact integer of the digit string; real `parseInt` rounds that integer to a
double, which is only exact for magnitudes below 2^53 and overflows to
`Infinity` for digit strings of 309 or more digits — neither rounding nor
overflow is modelled, so statements about runs outside (-2^53, 2^53) are out
of this embedding's scope. -/
def parseIntJS (s : String) : Option ℤ :=
  let l := s.data.dropWhile isJsWhitespace
  let core : List Char → Bool → Option ℤ := fun l neg =>
    let ds := l.takeWhile isDigit10
    if ds.isEmpty then none
    else some (if neg then -(digitsToNat ds : ℤ) else (digitsToNat ds : ℤ))
  match l with
  | '+' :: rest => core rest false
  | '-' :: rest => core rest true
  | _ => core l false

/-- Exponent tail of a JS numeric literal: the empty list means exponent 0; a
full `e`/`E`, optional sign, one-or-more digits tail gives its value; anything
else is a syntax error (`none`). -/
def parseExpoTail : List Char → Option ℤ
  | [] => some 0
  | e :: rest =>
    if e = 'e' ∨ e = 'E' then
      let signed : List Char → Bool → Option ℤ := fun l neg =>
        if l.isEmpty ∨ (¬ l.all isDigit10) then none
        else some (if neg then -(digitsToNat l : ℤ) else (digitsToNat l : ℤ))
      match rest with
      | '+' :: rest2 => signed rest2 false
      | '-' :: rest2 => signed rest2 true
      | _ => signed rest false
    else none

/-- Apply a decimal exponent to an exact rational. -/
def applyExpo (q : JRat) (e : ℤ) : JRat :=
  if 0 ≤ e then ⟨q.num * 10 ^ e.toNat, q.den⟩ else ⟨q.num, q.den * 10 ^ (-e).toNat⟩

/-- Body of a JS decimal numeric literal (after the optional sign), which must
be consumed entirely: `digits [. digits] [exp]`, `. digits [exp]`.  Hex,
octal and binary literal forms (`0x…`) are not modelled; no input in this
development uses them. -/
def parseDecimalBody (l : List Char) : Option JRat :=
  let ip := l.takeWhile isDigit10
  let rest := l.drop ip.length
  match rest with
  | '.' :: rest2 =>
    let fp := rest2.takeWhile isDigit10
    let rest3 := rest2.drop fp.length
    if ip.isEmpty ∧ fp.isEmpty then none
    else
      (parseExpoTail rest3).map fun ex =>
        applyExpo ⟨(digitsToNat ip * 10 ^ fp.length + digitsToNat fp : ℕ), 10 ^ fp.length⟩ ex
  | _ =>
    if ip.isEmpty then none
    else (parseExpoTail rest).map fun ex => applyExpo ⟨(digitsToNat ip : ℕ), 1⟩ ex

/-- Negate a finite value (used for a leading `-` sign). -/
def JRat.negate (q : JRat) : JRat := ⟨-q.num, q.den⟩

/-- JS `Number(s)` (string-to-number coercion): trims both ends, the empty
string coerces to `0`, then an optional sign followed by `Infinity` or a full
decimal literal; anything else is `NaN` (`none`). -/
def jsNumberOf (s : String) : Option JNum :=
  let l := trimChars s.data
  let body : List Char → Bool → Option JNum := fun l neg =>
    if l = "Infinity".data then some (if neg then .negInf else .inf)
    else (parseDecimalBody l).map fun q => .fin (if neg then q.negate else q)
  match l with
  | [] => some (.fin ⟨0, 1⟩)
  | '+' :: rest => body rest false
  | '-' :: rest => body rest true
  | _ => body l false

/-- Longest-prefix exponent for `parseFloat`: `e`/`E`, optional sign, then the
longest run of digits; `none` when that run is empty (then `parseFloat` stops
before the `e`, e.g. `parseFloat("1e") = 1`). -/
def parseExpoTailPre : List Char → Option ℤ
  | [] => none
  | e :: rest =>
    if e = 'e' ∨ e = 'E' then
      let signed : List Char → Bool → Option ℤ := fun l neg =>
        let ds := l.takeWhile isDigit10
        if ds.isEmpty then none
        else some (if neg then -(digitsToNat ds : ℤ) else (digitsToNat ds : ℤ))
      match rest with
      | '+' :: rest2 => signed rest2 false
      | '-' :: rest2 => signed rest2 true
      | _ => signed rest false
    else none

/-- JS `parseFloat(s)`: skip leading whitespace, optional sign, then the longest
prefix that is `Infinity` or a decimal literal; `none` (JS `NaN`) when no such
prefix exists.  Trailing garbage is ignored (`parseFloat("1.5in") = 1.5`). -/
def parseFloatJS (s : String) : Option JNum :=
  let l := s.data.dropWhile isJsWhitespace
  let body : List Char → Bool → Option JNum := fun l neg =>
    if l.take 8 = "Infinity".data then some (if neg then .negInf else .inf)
    else
      let ip := l.takeWhile isDigit10
      let rest := l.drop ip.length
      let frac : List Char :=
        match rest with
        | '.' :: rest2 => rest2.takeWhile isDigit10
        | _ => []
      let hasDot : Bool := match rest with | '.' :: _ => true | _ => false
      if ip.isEmpty ∧ frac.isEmpty then none
      else
        let afterMantissa :=
          if hasDot then (l.drop (ip.length + 1)).drop frac.length else rest
        let expo : ℤ :=
          match parseExpoTailPre afterMantissa with
          | some e => e
          | none => 0
        some (.fin (applyExpo
          (if neg then JRat.negate ⟨(digitsToNat ip * 10 ^ frac.length + digitsToNat frac : ℕ), 10 ^ frac.length⟩
           else ⟨(digitsToNat ip * 10 ^ frac.length + digitsToNat frac : ℕ), 10 ^ frac.length⟩) expo))
  match l with
  | '+' :: rest => body rest false
  | '-' :: rest => body rest true
  | _ => body l false

/-! ## The form-driven sequence generator (`generateBarcodeData`, script.js 42-58) -/

/-- Result of `generateBarcodeData`: `invalidInput` is the
`alert('Please ensure Start, End, and Increment are valid numbers.')` branch
(which returns `[]` after alerting); `codes` is the generated list. -/
inductive GenResult where
  | invalidInput
  | codes (l : List String)
  deriving DecidableEq, Repr

/-- The loop `for (let i = start; i <= end; i += inc) codes.push(prefix + i + suffix)`
of `generateBarcodeData` (script.js 53-57), with explicit fuel; `none` means
the fuel ran out.  `i` advances by exact integer addition; JS advances a
double, which agrees while every iterate stays strictly within
(-2^53, 2^53) but absorbs the increment at 2^53-scale magnitudes (there the
real loop can fail to advance at all) — so positive termination statements
about this loop are only made under bounds that keep every iterate inside
the exact range. -/
def formLoop (pre suf : String) (e inc : ℤ) : ℕ → ℤ → List String → Option (List String)
  | 0, _, _ => none
  | fuel + 1, i, acc =>
    if i ≤ e then formLoop pre suf e inc fuel (i + inc) (acc ++ [pre ++ toString i ++ suf])
    else some acc

/-- The form-driven generator `generateBarcodeData` (script.js 42-58): `parseInt` the three numeric
fields, `inc = parseInt(increment, 10) || 1` (so `NaN` and `0` both fall back
to `1`), alert-and-return-`[]` when start or end is `NaN`, else run the
generation loop.  The prefix and suffix fields are used as-is. -/
def generateBarcodeData (fuel : ℕ) (pre startV endV suf incV : String) : Option GenResult :=
  match parseIntJS startV, parseIntJS endV with
  | some s, some e =>
    let inc : ℤ := match parseIntJS incV with
      | none => 1
      | some v => if v = 0 then 1 else v
    (formLoop pre suf e inc fuel s []).map .codes
  | _, _ => some .invalidInput

/-! ## The text-parameter processor (`handleProcessText`, script.js 199-245) -/

/-- One line of the parameter block (script.js 204-210): split on `':'`; the
line is kept when the part before the first colon is nonempty and a colon
exists; the key is trimmed and lowercased, the value is the remaining parts
re-joined with `':'` and trimmed. -/
def lineKV (l : List Char) : Option (String × String) :=
  match splitOnCharL ':' l with
  | [] => none
  | [_] => none
  | key :: rest =>
    if key.isEmpty then none
    else some (String.mk (toLowerAscii (trimChars key)),
               String.mk (trimChars (List.intercalate [':'] rest)))

/-- The `params` accumulator of script.js 204-210, as the list of (key, value)
pairs in line order (a later line with the same key overwrites an earlier
one, which `lookupParam` reproduces by keeping the last match). -/
def processTextParams (input : String) : List (String × String) :=
  (splitOnCharL '\n' (jsTrim input).data).filterMap lineKV

/-- Property lookup on the accumulated `params` object: the value of the last
line that bound the key. -/
def lookupParam (kvs : List (String × String)) (k : String) : Option String :=
  kvs.foldl (fun acc p => if p.1 = k then some p.2 else acc) none

/-- Resolution `params.range ? params.range.split('-').map(Number) : []`
(script.js 214): `none` entries are the components on which `Number` gave
`NaN`. -/
def resolveRange (kvs : List (String × String)) : List (Option JNum) :=
  match lookupParam kvs "range" with
  | some v => if v = "" then [] else (splitOnCharL '-' v.data).map fun cs => jsNumberOf (String.mk cs)
  | none => []

/-- Resolution `params.increment ? parseInt(params.increment, 10) : 1` (script.js 215):
an absent or empty value defaults to `1`; a present nonempty value goes
through `parseInt` and may be `NaN` (`none`). -/
def resolveIncrement (kvs : List (String × String)) : Option ℤ :=
  match lookupParam kvs "increment" with
  | some v => if v = "" then some 1 else parseIntJS v
  | none => some 1

/-- Resolution `params.padding ? parseInt(params.padding, 10) : 0` (script.js 216). -/
def resolvePadding (kvs : List (String × String)) : Option ℤ :=
  match lookupParam kvs "padding" with
  | some v => if v = "" then some 0 else parseIntJS v
  | none => some 0

/-- The step `let numberPart = String(i); if (padding > 0) numberPart =
numberPart.padStart(padding, '0')` (script.js 235-238). -/
def numberPart (padding : ℕ) (s : String) : String :=
  if 0 < padding then padStartZero padding s else s

/-- The generation loop of `handleProcessText` (script.js 233-240):
`for (let i = start; i <= end; i += increment)` pushing
`prefix + numberPart + suffix`.  `start`/`end` are the `Number`-coerced range
components (possibly infinite), `increment` the `parseInt`-validated integer.
`none` means the fuel ran out. -/
def textLoop (pre suf : String) (endv : JNum) (inc : ℤ) (padding : ℕ) :
    ℕ → JNum → List String → Option (List String)
  | 0, _, _ => none
  | fuel + 1, i, acc =>
    if i.leB endv then
      textLoop pre suf endv inc padding fuel (i.addInt inc)
        (acc ++ [pre ++ numberPart padding i.toJsString ++ suf])
    else some acc

/-- Result of `handleProcessText`: `err m` is an `alert(m)` rejection (the
manual-entry field and the parameter field are left unchanged); `ok m` is
success with `m` the new content of the manual-entry field (the parameter
field is cleared). -/
inductive PTResult where
  | err (msg : String)
  | ok (manual : String)
  deriving DecidableEq, Repr

/-- The new manual-entry content on success (script.js 242-243): the trimmed
existing content, a newline separator when it is nonempty, then the generated
codes joined with newlines. -/
def appendManual (manual : String) (codes : List String) : String :=
  let ex := jsTrim manual
  (if ex = "" then "" else ex ++ "\n") ++ String.intercalate "\n" codes

/-- The test `range.length !== 2 || isNaN(range[0]) || isNaN(range[1])`
(script.js 218), as the extraction of the two validated endpoints: `none`
exactly when that test fires. -/
def rangePair : List (Option JNum) → Option (JNum × JNum)
  | [some a, some b] => some (a, b)
  | _ => none

/-- The text-parameter processor `handleProcessText` (script.js 199-245): trim the parameter text (empty →
reject), parse the key/value lines, then validate in source order — range
must split on `'-'` into exactly two `Number`-coercible components, start must
not exceed end, `parseInt(increment)` must be ≥ 1, `parseInt(padding)` must
be ≥ 0 — and on success run the generation loop and append to the
manual-entry content.  `none` means the generation loop ran out of fuel. -/
def handleProcessText (fuel : ℕ) (input manual : String) : Option PTResult :=
  if jsTrim input = "" then some (.err "Please enter processing parameters.") else
  match rangePair (resolveRange (processTextParams input)) with
  | none => some (.err "Invalid range. Please use the format: range: 1-100")
  | some (a, b) =>
    if JNum.gtB a b then some (.err "Start of range cannot be greater than end.") else
    match resolveIncrement (processTextParams input) with
    | none => some (.err "Increment must be a positive number.")
    | some inc =>
      if inc < 1 then some (.err "Increment must be a positive number.") else
      match resolvePadding (processTextParams input) with
      | none => some (.err "Padding must be a non-negative number.")
      | some pad =>
        if pad < 0 then some (.err "Padding must be a non-negative number.") else
        (textLoop ((lookupParam (processTextParams input) "prefix").getD "")
                  ((lookupParam (processTextParams input) "suffix").getD "")
                  b inc pad.toNat fuel a []).map fun codes =>
          .ok (appendManual manual codes)

/-! ## Page chunking

Both PDF exports walk the code list in fixed-size slices
(`codes.slice(i, i + 3)` for `i += 3`, and `codes.slice(p*20, (p+1)*20)`),
starting a new page per slice.  `chunks n l` is that slicing, written with
fuel so that it computes by `rfl`. -/

def chunksAux (n : ℕ) : ℕ → List α → List (List α)
  | 0, _ => []
  | fuel + 1, l => if l.isEmpty then [] else l.take n :: chunksAux n fuel (l.drop n)

/-- The list `l` cut into consecutive slices of `n` elements (the last slice may be
shorter); the page decomposition of both PDF export loops. -/
def chunks (n : ℕ) (l : List α) : List (List α) :=
  chunksAux n l.length l

/-! ## The duplicated-pair PDF layout (`handleStandardPdfExport`, script.js 87-129) -/

/-- The eight parsed layout settings of the standard export, after the `* 72`
inch-to-point scaling of page size and offsets (script.js 92-99), as exact
rationals. -/
structure StdParams where
  pW : ℚ
  pH : ℚ
  bW : ℚ
  bH : ℚ
  mX : ℚ
  mY : ℚ
  gH : ℚ
  gV : ℚ
  deriving DecidableEq, Repr

/-- One code of the standard layout: its x position and the two y positions at
which its barcode is drawn (script.js 116-118). -/
structure StdItem where
  code : String
  x : ℚ
  topY : ℚ
  bottomY : ℚ
  deriving DecidableEq, Repr

/-- Position of the in-page item at index `j` (script.js 116-118):
`x = mX + j*gH`, `topY = pH - mY - bH - 15`, `bottomY = topY - gV`. -/
def stdItem (p : StdParams) (j : ℕ) (code : String) : StdItem :=
  ⟨code, p.mX + j * p.gH, p.pH - p.mY - p.bH - 15, (p.pH - p.mY - p.bH - 15) - p.gV⟩

/-- One page of the standard layout: the up-to-3 codes of its slice, each
placed by its in-page index. -/
def stdPage (p : StdParams) (pageCodes : List String) : List StdItem :=
  pageCodes.enum.map fun jc => stdItem p jc.1 jc.2

/-- The full standard layout (script.js 108-127): a page per slice of 3
codes. -/
def stdLayout (p : StdParams) (codes : List String) : List (List StdItem) :=
  (chunks 3 codes).map (stdPage p)

/-- The two `doc.svg` positions of one standard-layout item
(script.js 120-121): the same `x`, once at `topY` and once at `bottomY`. -/
def stdDraws (it : StdItem) : List (ℚ × ℚ) :=
  [(it.x, it.topY), (it.x, it.bottomY)]

/-- The eight layout fields as parsed by script.js 92-99, in source order
`[pW, pH, bW, bH, mX, mY, gH, gV]`; `none` entries are `NaN`.  Page size and
the two offsets are scaled by 72, the barcode size and gaps are not. -/
def stdParsedDims (pwS phS bwS bhS mxS myS ghS gvS : String) : List (Option JNum) :=
  [(parseFloatJS pwS).map (·.scaleNat 72), (parseFloatJS phS).map (·.scaleNat 72),
   parseFloatJS bwS, parseFloatJS bhS,
   (parseFloatJS mxS).map (·.scaleNat 72), (parseFloatJS myS).map (·.scaleNat 72),
   parseFloatJS ghS, parseFloatJS gvS]

/-- Outcome of the layout-settings validation of the standard export
(script.js 101-103). -/
inductive StdCheck where
  | aborted (msg : String)
  | proceeds (dims : List JNum)
  deriving DecidableEq, Repr

def StdCheck.isAborted : StdCheck → Bool
  | .aborted _ => true
  | .proceeds _ => false

/-- The check `[pW, pH, bW, bH, mX, mY, gH, gV].some(isNaN)` (script.js 101-103): abort
with the alert message exactly when some parsed value is `NaN`; every other
value — infinities included — passes. -/
def stdExportCheck (pwS phS bwS bhS mxS myS ghS gvS : String) : StdCheck :=
  let dims := stdParsedDims pwS phS bwS bhS mxS myS ghS gvS
  match dims.foldr (fun d acc => acc.bind fun l => d.map (· :: l)) (some []) with
  | none => .aborted "Please ensure all layout settings are valid numbers."
  | some ds => .proceeds ds

/-! ## Per-item rendering behaviour of the four output paths

The barcode renderer (`JsBarcode`) is an external collaborator that may throw
on a code its symbology cannot encode; it is abstracted as a
`render : String → Bool` success predicate. -/

/-- A preview entry (`handlePreview`, script.js 72-84): the rendered barcode,
or the inline `Invalid code:` marker when `JsBarcode` threw (the `try`/`catch`
makes the failure non-fatal). -/
inductive PreviewItem where
  | okItem (code : String)
  | invalidItem (code : String)
  deriving DecidableEq, Repr

/-- The per-item loop of `handlePreview` (script.js 72-84): the first 10 codes,
each becoming a rendered item or an inline error marker. -/
def previewItems (render : String → Bool) (codes : List String) : List PreviewItem :=
  (codes.take 10).map fun c => if render c then .okItem c else .invalidItem c

/-- Filename sanitization of the SVG ZIP export (script.js 177):
`code.replace(/[^a-z0-9]/gi, '_').toLowerCase()`. -/
def sanitizeFilename (code : String) : String :=
  String.mk (code.data.map fun c =>
    if ('a' ≤ c ∧ c ≤ 'z') ∨ ('A' ≤ c ∧ c ≤ 'Z') ∨ ('0' ≤ c ∧ c ≤ '9')
    then toLowerAsciiChar c else '_')

/-- The per-item loop of `handleSvgZipExport` (script.js 171-182): each code that
renders contributes a `<sanitized>.svg` entry; a code on which `JsBarcode`
throws is skipped (`try`/`catch` with `console.warn`), and the loop
continues. -/
def svgZipEntries (render : String → Bool) (codes : List String) : List String :=
  codes.filterMap fun c => if render c then some (sanitizeFilename c ++ ".svg") else none

/-- Outcome of an export operation: `failed m` aborts the whole export with
message or offending code `m` (nothing is saved); `done out` is a completed
export. -/
inductive ExportOutcome (α : Type) where
  | failed (msg : String)
  | done (out : α)
  deriving DecidableEq, Repr

def ExportOutcome.mapDone (f : α → β) : ExportOutcome α → ExportOutcome β
  | .failed m => .failed m
  | .done a => .done (f a)

/-- The per-item rendering of both PDF exports (script.js 114 and 157):
`JsBarcode` is called with no `try`/`catch`, so the first code that fails to
encode throws out of the export function — the whole export aborts, later
codes are never rendered and no document is saved.  `.done` returns the codes
in processed order when every code renders. -/
def renderAllOrAbort (render : String → Bool) : List String → ExportOutcome (List String)
  | [] => .done []
  | c :: rest =>
    if render c then (renderAllOrAbort render rest).mapDone (c :: ·)
    else .failed c

/-- The control skeleton of `handleStandardPdfExport` (script.js 87-129) after
code generation: abort on an empty code list (script.js 89), then validate the
layout settings (101-103) before the document is created (106), then render
every code (108-127).  The `failed` payload is the alert message or the
code whose rendering threw. -/
def stdExportRun (render : String → Bool) (codes : List String)
    (pwS phS bwS bhS mxS myS ghS gvS : String) : ExportOutcome (List String) :=
  if codes.isEmpty then .failed "No barcodes to export." else
  match stdExportCheck pwS phS bwS bhS mxS myS ghS gvS with
  | .aborted m => .failed m
  | .proceeds _ => renderAllOrAbort render codes

/-! ## The dense-grid PDF layout (`handleUnitedPdfExport`, script.js 131-162) -/

/-- jsPDF's A4 portrait page width in points (`doc.internal.pageSize.getWidth()`). -/
def a4Width : ℚ := 595.28

/-- jsPDF's A4 portrait page height in points. -/
def a4Height : ℚ := 841.89

/-- The uniform margin of the united export (script.js 137). -/
def unitedMargin : ℚ := 72

/-- The cell width `colWidth = (pageWidth - 2*margin) / 4` (script.js 144-146). -/
def unitedColWidth : ℚ := (a4Width - 2 * unitedMargin) / 4

/-- The cell height `rowHeight = (pageHeight - 2*margin) / 5` (script.js 145-147). -/
def unitedRowHeight : ℚ := (a4Height - 2 * unitedMargin) / 5

/-- One slot of the dense grid: its code, grid coordinates and the centered
item rectangle. -/
structure UItem where
  code : String
  row : ℕ
  col : ℕ
  x : ℚ
  y : ℚ
  w : ℚ
  h : ℚ
  deriving DecidableEq, Repr

/-- Slot of the in-page item at index `i` (script.js 148-155): `row = ⌊i/4⌋`,
`col = i % 4`, item size 80% of the cell width and 50% of the cell height,
centered in its cell. -/
def unitedItem (i : ℕ) (code : String) : UItem :=
  let row := i / 4
  let col := i % 4
  let w := unitedColWidth * 0.8
  let h := unitedRowHeight * 0.5
  ⟨code, row, col,
   unitedMargin + col * unitedColWidth + (unitedColWidth - w) / 2,
   unitedMargin + row * unitedRowHeight + (unitedRowHeight - h) / 2,
   w, h⟩

/-- The full dense-grid layout (script.js 139-159): a page per slice of 20
codes (`numPages = ceil(len / 20)`), each page filled in input order. -/
def unitedLayout (codes : List String) : List (List UItem) :=
  (chunks 20 codes).map fun pageCodes => pageCodes.enum.map fun ic => unitedItem ic.1 ic.2

/-- Non-termination of the text-parameter processor on a given input: no
amount of fuel makes its generation loop finish. -/
def processTextDiverges (input manual : String) : Prop :=
  ∀ fuel, handleProcessText fuel input manual = none

/-! ## Bridging lemmas: integer-valued JS numbers -/

lemma JRat.addInt_ofInt (n k : ℤ) : (JRat.ofInt n).addInt k = JRat.ofInt (n + k) := by
  simp [JRat.ofInt, JRat.addInt]

lemma JNum.addInt_fin_ofInt (n k : ℤ) :
    (JNum.fin (JRat.ofInt n)).addInt k = .fin (.ofInt (n + k)) := by
  simp [JNum.addInt, JRat.addInt_ofInt]

lemma JRat.leB_ofInt (a b : ℤ) : (JRat.ofInt a).leB (JRat.ofInt b) = decide (a ≤ b) := by
  simp [JRat.ofInt, JRat.leB]

lemma JNum.leB_fin_ofInt (a b : ℤ) :
    (JNum.fin (JRat.ofInt a)).leB (.fin (.ofInt b)) = decide (a ≤ b) := by
  simp [JNum.leB, JRat.leB_ofInt]

lemma JRat.toJsString_ofInt (n : ℤ) : (JRat.ofInt n).toJsString = toString n := by
  cases n with
  | ofNat m =>
    simp [JRat.toJsString, JRat.ofInt, Nat.mod_one, Nat.div_one,
      if_neg (Int.not_lt.mpr (Int.ofNat_zero_le m))]
    rfl
  | negSucc m =>
    simp [JRat.toJsString, JRat.ofInt, Nat.mod_one, Nat.div_one,
      if_pos (Int.negSucc_lt_zero m)]
    rfl

lemma JNum.toJsString_fin_ofInt (n : ℤ) :
    (JNum.fin (JRat.ofInt n)).toJsString = toString n := JRat.toJsString_ofInt n

/-! ## Closed form of the generation loops

For integer bounds `s ≤ e` and increment `inc ≥ 1`, both loops produce
exactly `(e − s).toNat / inc.toNat + 1` codes, the `k`-th one built from the
integer `s + k·inc`. -/

lemma seqLen_zero {s e inc : ℤ} (h1 : s ≤ e) (h2 : e < s + inc) :
    (e - s).toNat / inc.toNat = 0 :=
  Nat.div_eq_of_lt (by omega)

lemma seqLen_step {s e inc : ℤ} (hinc : 1 ≤ inc) (h2 : s + inc ≤ e) :
    (e - s).toNat / inc.toNat = (e - (s + inc)).toNat / inc.toNat + 1 := by
  have hd : (e - (s + inc)).toNat = (e - s).toNat - inc.toNat := by omega
  have h0 : 0 < inc.toNat := by omega
  have hle : inc.toNat ≤ (e - s).toNat := by omega
  rw [hd, Nat.div_eq_sub_div h0 hle]

lemma range_map_code_step (s inc : ℤ) (q : ℕ) (f : ℤ → String) :
    (List.range (q + 1 + 1)).map (fun k : ℕ => f (s + k * inc)) =
      f s :: (List.range (q + 1)).map (fun k : ℕ => f ((s + inc) + k * inc)) := by
  have h0 : s + ((0 : ℕ) : ℤ) * inc = s := by push_cast; ring
  have hsucc : ∀ k : ℕ, s + ((k + 1 : ℕ) : ℤ) * inc = (s + inc) + (k : ℤ) * inc := by
    intro k; push_cast; ring
  rw [List.range_succ_eq_map, List.map_cons, List.map_map]
  simp only [Function.comp_def, Nat.succ_eq_add_one, h0, hsucc]

lemma formLoop_stop (pre suf : String) (e inc s : ℤ) (h : e < s) (fuel : ℕ)
    (hf : 0 < fuel) (acc : List String) :
    formLoop pre suf e inc fuel s acc = some acc := by
  cases fuel with
  | zero => omega
  | succ n => rw [formLoop, if_neg (by omega)]

lemma formLoop_spec (pre suf : String) (e inc : ℤ) (hinc : 1 ≤ inc) :
    ∀ (fuel : ℕ) (s : ℤ) (acc : List String), s ≤ e →
      (e - s).toNat / inc.toNat + 1 < fuel →
      formLoop pre suf e inc fuel s acc =
        some (acc ++ (List.range ((e - s).toNat / inc.toNat + 1)).map
          fun k : ℕ => pre ++ toString (s + k * inc) ++ suf) := by
  intro fuel
  induction fuel with
  | zero => intro s acc _ h2; exact absurd h2 (Nat.not_lt_zero _)
  | succ n ih =>
    intro s acc h1 h2
    rw [formLoop, if_pos h1]
    by_cases hstep : s + inc ≤ e
    · have hq := seqLen_step hinc hstep
      have h2' : (e - (s + inc)).toNat / inc.toNat + 1 < n :=
        Nat.succ_lt_succ_iff.mp (by rw [← hq]; exact h2)
      rw [ih (s + inc) _ hstep h2']
      congr 1
      rw [hq, range_map_code_step s inc _ (fun v => pre ++ toString v ++ suf)]
      simp [List.append_assoc]
    · push_neg at hstep
      have hn : 0 < n :=
        Nat.lt_of_le_of_lt (Nat.zero_le _) (Nat.succ_lt_succ_iff.mp h2)
      rw [formLoop_stop pre suf e inc (s + inc) hstep n hn]
      rw [seqLen_zero h1 hstep]
      have hr1 : List.range 1 = [0] := rfl
      rw [hr1, List.map_cons, List.map_nil]
      simp

lemma textLoop_stop (pre suf : String) (p : ℕ) (e inc s : ℤ) (h : e < s) (fuel : ℕ)
    (hf : 0 < fuel) (acc : List String) :
    textLoop pre suf (.fin (.ofInt e)) inc p fuel (.fin (.ofInt s)) acc = some acc := by
  cases fuel with
  | zero => omega
  | succ n =>
    rw [textLoop, if_neg (by rw [JNum.leB_fin_ofInt]; simp; omega)]

lemma textLoop_spec (pre suf : String) (p : ℕ) (e inc : ℤ) (hinc : 1 ≤ inc) :
    ∀ (fuel : ℕ) (s : ℤ) (acc : List String), s ≤ e →
      (e - s).toNat / inc.toNat + 1 < fuel →
      textLoop pre suf (.fin (.ofInt e)) inc p fuel (.fin (.ofInt s)) acc =
        some (acc ++ (List.range ((e - s).toNat / inc.toNat + 1)).map
          fun k : ℕ => pre ++ numberPart p (toString (s + k * inc)) ++ suf) := by
  intro fuel
  induction fuel with
  | zero => intro s acc _ h2; exact absurd h2 (Nat.not_lt_zero _)
  | succ n ih =>
    intro s acc h1 h2
    rw [textLoop, if_pos (by rw [JNum.leB_fin_ofInt]; exact decide_eq_true h1),
      JNum.addInt_fin_ofInt, JNum.toJsString_fin_ofInt]
    by_cases hstep : s + inc ≤ e
    · have hq := seqLen_step hinc hstep
      have h2' : (e - (s + inc)).toNat / inc.toNat + 1 < n :=
        Nat.succ_lt_succ_iff.mp (by rw [← hq]; exact h2)
      rw [ih (s + inc) _ hstep h2']
      congr 1
      rw [hq, range_map_code_step s inc _ (fun v => pre ++ numberPart p (toString v) ++ suf)]
      simp [List.append_assoc]
    · push_neg at hstep
      have hn : 0 < n :=
        Nat.lt_of_le_of_lt (Nat.zero_le _) (Nat.succ_lt_succ_iff.mp h2)
      rw [textLoop_stop pre suf p e inc (s + inc) hstep n hn]
      rw [seqLen_zero h1 hstep]
      have hr1 : List.range 1 = [0] := rfl
      rw [hr1, List.map_cons, List.map_nil]
      simp

/-- With both range endpoints `Infinity`, the condition `i <= end` stays true
and `i += increment` leaves `i` at `Infinity`: the loop of script.js 234-240
never terminates. -/
lemma textLoop_inf_diverges (pre suf : String) (inc : ℤ) (p : ℕ) :
    ∀ (fuel : ℕ) (acc : List String),
      textLoop pre suf .inf inc p fuel .inf acc = none := by
  intro fuel
  induction fuel with
  | zero => intro _; rfl
  | succ n ih =>
    intro acc
    rw [textLoop, if_pos (by decide)]
    exact ih _

/-- With a negative increment and `start ≤ end`, the loop of script.js 54-56
never terminates: `i` only decreases, so `i <= end` stays true. -/
lemma formLoop_neg_diverges (pre suf : String) (e inc : ℤ) (hinc : inc ≤ -1) :
    ∀ (fuel : ℕ) (s : ℤ) (acc : List String), s ≤ e →
      formLoop pre suf e inc fuel s acc = none := by
  intro fuel
  induction fuel with
  | zero => intros; rfl
  | succ n ih =>
    intro s acc h
    rw [formLoop, if_pos h]
    exact ih _ _ (by omega)

/-! ## Characterization of `handleProcessText`'s validation pipeline -/

lemma handleProcessText_empty (fuel : ℕ) (input manual : String)
    (h : jsTrim input = "") :
    handleProcessText fuel input manual =
      some (.err "Please enter processing parameters.") := by
  rw [handleProcessText, if_pos h]

lemma handleProcessText_invalidRange (fuel : ℕ) (input manual : String)
    (h1 : jsTrim input ≠ "")
    (h2 : rangePair (resolveRange (processTextParams input)) = none) :
    handleProcessText fuel input manual =
      some (.err "Invalid range. Please use the format: range: 1-100") := by
  simp [handleProcessText, h1, h2]

lemma handleProcessText_startGtEnd (fuel : ℕ) (input manual : String) (a b : JNum)
    (h1 : jsTrim input ≠ "")
    (h2 : rangePair (resolveRange (processTextParams input)) = some (a, b))
    (h3 : JNum.gtB a b = true) :
    handleProcessText fuel input manual =
      some (.err "Start of range cannot be greater than end.") := by
  simp [handleProcessText, h1, h2, h3]

lemma handleProcessText_badIncrement (fuel : ℕ) (input manual : String) (a b : JNum)
    (h1 : jsTrim input ≠ "")
    (h2 : rangePair (resolveRange (processTextParams input)) = some (a, b))
    (h3 : JNum.gtB a b = false)
    (h4 : resolveIncrement (processTextParams input) = none ∨
          ∃ v, resolveIncrement (processTextParams input) = some v ∧ v < 1) :
    handleProcessText fuel input manual =
      some (.err "Increment must be a positive number.") := by
  rcases h4 with h4 | ⟨v, h4, hv⟩
  · simp [handleProcessText, h1, h2, h3, h4]
  · simp [handleProcessText, h1, h2, h3, h4, hv]

lemma handleProcessText_badPadding (fuel : ℕ) (input manual : String) (a b : JNum)
    (inc : ℤ) (h1 : jsTrim input ≠ "")
    (h2 : rangePair (resolveRange (processTextParams input)) = some (a, b))
    (h3 : JNum.gtB a b = false)
    (h4 : resolveIncrement (processTextParams input) = some inc) (h5 : ¬ inc < 1)
    (h6 : resolvePadding (processTextParams input) = none ∨
          ∃ v, resolvePadding (processTextParams input) = some v ∧ v < 0) :
    handleProcessText fuel input manual =
      some (.err "Padding must be a non-negative number.") := by
  rcases h6 with h6 | ⟨v, h6, hv⟩
  · simp [handleProcessText, h1, h2, h3, h4, h5, h6]
  · simp [handleProcessText, h1, h2, h3, h4, h5, h6, hv]

lemma handleProcessText_success (fuel : ℕ) (input manual : String) (a b : JNum)
    (inc pad : ℤ) (h1 : jsTrim input ≠ "")
    (h2 : rangePair (resolveRange (processTextParams input)) = some (a, b))
    (h3 : JNum.gtB a b = false)
    (h4 : resolveIncrement (processTextParams input) = some inc) (h5 : ¬ inc < 1)
    (h6 : resolvePadding (processTextParams input) = some pad) (h7 : ¬ pad < 0) :
    handleProcessText fuel input manual =
      (textLoop ((lookupParam (processTextParams input) "prefix").getD "")
        ((lookupParam (processTextParams input) "suffix").getD "")
        b inc pad.toNat fuel a []).map (fun codes => .ok (appendManual manual codes)) := by
  simp [handleProcessText, h1, h2, h3, h4, h5, h6, h7]

/-! ## Page chunking lemmas -/

lemma chunksAux_fuel {α : Type} (n : ℕ) (hn : 0 < n) :
    ∀ (f1 f2 : ℕ) (l : List α), l.length ≤ f1 → l.length ≤ f2 →
      chunksAux n f1 l = chunksAux n f2 l := by
  intro f1
  induction f1 with
  | zero =>
    intro f2 l h1 _
    have h0 : l = [] := List.eq_nil_of_length_eq_zero (Nat.le_zero.mp h1)
    subst h0
    cases f2 <;> rfl
  | succ m ih =>
    intro f2 l h1 h2
    cases l with
    | nil => cases f2 <;> rfl
    | cons a t =>
      cases f2 with
      | zero => simp at h2
      | succ m2 =>
        rw [chunksAux, chunksAux]
        simp only [List.isEmpty_cons, Bool.false_eq_true, if_false]
        congr 1
        apply ih
        · simp only [List.length_drop, List.length_cons]
          simp only [List.length_cons] at h1
          omega
        · simp only [List.length_drop, List.length_cons]
          simp only [List.length_cons] at h2
          omega

lemma chunks_cons {α : Type} (n : ℕ) (hn : 0 < n) (l : List α) (hne : l ≠ []) :
    chunks n l = l.take n :: chunks n (l.drop n) := by
  cases l with
  | nil => exact absurd rfl hne
  | cons a t =>
    show chunksAux n (t.length + 1) (a :: t) = _
    rw [chunksAux]
    simp only [List.isEmpty_cons, Bool.false_eq_true, if_false]
    congr 1
    exact chunksAux_fuel n hn t.length ((a :: t).drop n).length ((a :: t).drop n)
      (by simp only [List.length_drop, List.length_cons]; omega) le_rfl

lemma chunks_mem_length {α : Type} (n : ℕ) :
    ∀ (fuel : ℕ) (l : List α) (pg : List α), pg ∈ chunksAux n fuel l → pg.length ≤ n := by
  intro fuel
  induction fuel with
  | zero => intro l pg h; simp [chunksAux] at h
  | succ m ih =>
    intro l pg h
    rw [chunksAux] at h
    by_cases he : l.isEmpty
    · rw [if_pos he] at h; simp at h
    · rw [if_neg he] at h
      rcases List.mem_cons.mp h with h | h
      · rw [h]; exact List.length_take_le n l
      · exact ih _ _ h

/-! ## Layout lemmas -/

lemma stdPage_length (p : StdParams) (pc : List String) :
    (stdPage p pc).length = pc.length := by
  simp [stdPage]

lemma stdPage_codes (p : StdParams) (pc : List String) :
    (stdPage p pc).map StdItem.code = pc := by
  rw [stdPage, List.map_map]
  rw [show (StdItem.code ∘ fun jc : ℕ × String => stdItem p jc.1 jc.2) = Prod.snd
    from by funext jc; rfl]
  exact List.enum_map_snd pc

lemma stdLayout_codes (p : StdParams) (codes : List String) :
    (stdLayout p codes).map (fun pg => pg.map StdItem.code) = chunks 3 codes := by
  rw [stdLayout, List.map_map]
  rw [show ((fun pg : List StdItem => pg.map StdItem.code) ∘ stdPage p) = id
    from by funext pc; exact stdPage_codes p pc]
  exact List.map_id _

lemma stdItem_mem (p : StdParams) (codes : List String) (pg : List StdItem)
    (it : StdItem) (hpg : pg ∈ stdLayout p codes) (hit : it ∈ pg) :
    ∃ j c, it = stdItem p j c := by
  rw [stdLayout] at hpg
  obtain ⟨pc, _, rfl⟩ := List.mem_map.mp hpg
  rw [stdPage] at hit
  obtain ⟨jc, _, rfl⟩ := List.mem_map.mp hit
  exact ⟨jc.1, jc.2, rfl⟩

lemma unitedLayout_mem (codes : List String) (pg : List UItem)
    (hpg : pg ∈ unitedLayout codes) :
    ∃ pc, pc ∈ chunks 20 codes ∧ pg = pc.enum.map fun ic => unitedItem ic.1 ic.2 := by
  rw [unitedLayout] at hpg
  obtain ⟨pc, hmem, rfl⟩ := List.mem_map.mp hpg
  exact ⟨pc, hmem, rfl⟩

lemma unitedPage_get (pc : List String) (i : ℕ) (hpc : i < pc.length)
    (h : i < (pc.enum.map fun ic => unitedItem ic.1 ic.2).length) :
    (pc.enum.map fun ic => unitedItem ic.1 ic.2).get ⟨i, h⟩ =
      unitedItem i (pc.get ⟨i, hpc⟩) := by
  rw [List.get_eq_getElem, List.get_eq_getElem, List.getElem_map, List.getElem_enum]

lemma unitedItem_facts (i : ℕ) (c : String) :
    (unitedItem i c).w = unitedColWidth * 0.8 ∧
    (unitedItem i c).h = unitedRowHeight * 0.5 ∧
    (unitedItem i c).row = i / 4 ∧ (unitedItem i c).col = i % 4 ∧
    (unitedItem i c).x = unitedMargin + (unitedItem i c).col * unitedColWidth +
      (unitedColWidth - (unitedItem i c).w) / 2 ∧
    (unitedItem i c).y = unitedMargin + (unitedItem i c).row * unitedRowHeight +
      (unitedRowHeight - (unitedItem i c).h) / 2 ∧
    (unitedItem i c).x - (unitedMargin + (unitedItem i c).col * unitedColWidth) =
      (unitedMargin + ((unitedItem i c).col + 1) * unitedColWidth) -
        ((unitedItem i c).x + (unitedItem i c).w) ∧
    (unitedItem i c).y - (unitedMargin + (unitedItem i c).row * unitedRowHeight) =
      (unitedMargin + ((unitedItem i c).row + 1) * unitedRowHeight) -
        ((unitedItem i c).y + (unitedItem i c).h) := by
  refine ⟨rfl, rfl, rfl, rfl, rfl, rfl, ?_, ?_⟩ <;> (simp only [unitedItem]; ring)

/-! ## Claims -/

/-- Claim C1 (confirmed): for all integers `start ≤ end` and `increment ≥ 1`,
both the form-driven generator (`generateBarcodeData`, which applies no
padding) and the text-parameter generation loop produce exactly
`⌊(end − start)/increment⌋ + 1` code strings, the `k`-th one built from the
integer `start + k·increment` (so the underlying integers start at `start`
and increase by exactly `increment`), each code being
`prefix ++ numberPart ++ suffix` in that order. -/
theorem claim_C1 (s e inc : ℤ) (p : ℕ) (pre suf startS endS incS : String)
    (hs : parseIntJS startS = some s) (he : parseIntJS endS = some e)
    (hi : parseIntJS incS = some inc)
    (hle : s ≤ e) (hinc : 1 ≤ inc) (fuel : ℕ)
    (hfuel : (e - s).toNat / inc.toNat + 1 < fuel) :
    generateBarcodeData fuel pre startS endS suf incS =
      some (.codes ((List.range ((e - s).toNat / inc.toNat + 1)).map
        fun k : ℕ => pre ++ toString (s + k * inc) ++ suf)) ∧
    textLoop pre suf (.fin (.ofInt e)) inc p fuel (.fin (.ofInt s)) [] =
      some ((List.range ((e - s).toNat / inc.toNat + 1)).map
        fun k : ℕ => pre ++ numberPart p (toString (s + k * inc)) ++ suf) ∧
    ((List.range ((e - s).toNat / inc.toNat + 1)).map
        fun k : ℕ => pre ++ numberPart p (toString (s + k * inc)) ++ suf).length =
      (e - s).toNat / inc.toNat + 1 := by
  refine ⟨?_, ?_, by simp⟩
  · have hinc0 : inc ≠ 0 := by omega
    simp only [generateBarcodeData, hs, he, hi]
    rw [if_neg hinc0, formLoop_spec pre suf e inc hinc fuel s [] hle hfuel]
    simp
  · rw [textLoop_spec pre suf p e inc hinc fuel s [] hle hfuel]
    simp

/-- Witness for C1 at `start = 1`, `end = 7`, `increment = 2`
(`padding = 3` for the text-parameter loop). -/
theorem claim_C1_witness :
    generateBarcodeData 10 "A" "1" "7" "B" "2" =
      some (.codes ["A1B", "A3B", "A5B", "A7B"]) ∧
    textLoop "A" "B" (.fin (.ofInt 7)) 2 3 10 (.fin (.ofInt 1)) [] =
      some ["A001B", "A003B", "A005B", "A007B"] := by
  have h := claim_C1 1 7 2 3 "A" "B" "1" "7" "2" (by decide) (by decide) (by decide)
    (by decide) (by decide) 10 (by decide)
  exact ⟨h.1.trans (by decide), h.2.1.trans (by decide)⟩

/-- Claim C5 (confirmed): when `padding > 0` the numeric part of every
generated code is `String(i).padStart(padding, '0')` — left-padded with `'0'`
to length at least `padding`, and left unchanged when already at least
`padding` characters wide; in particular
`generate(1, 10, 3, "", "", padding 3) = ["001", "004", "007", "010"]`. -/
theorem claim_C5 (p : ℕ) (hp : 0 < p) (w : String) (s e inc : ℤ) (pre suf : String)
    (hle : s ≤ e) (hinc : 1 ≤ inc) (fuel : ℕ)
    (hfuel : (e - s).toNat / inc.toNat + 1 < fuel) :
    numberPart p w = padStartZero p w ∧
    padStartZero p w = String.mk (List.replicate (p - w.length) '0') ++ w ∧
    (padStartZero p w).length = max p w.length ∧
    (p ≤ w.length → padStartZero p w = w) ∧
    textLoop pre suf (.fin (.ofInt e)) inc p fuel (.fin (.ofInt s)) [] =
      some ((List.range ((e - s).toNat / inc.toNat + 1)).map
        fun k : ℕ => pre ++ padStartZero p (toString (s + k * inc)) ++ suf) ∧
    textLoop "" "" (.fin (.ofInt 10)) 3 3 9 (.fin (.ofInt 1)) [] =
      some ["001", "004", "007", "010"] := by
  refine ⟨by rw [numberPart, if_pos hp], ?_, ?_, fun h => by rw [padStartZero, if_pos h],
    ?_, by decide⟩
  · by_cases h : p ≤ w.length
    · rw [padStartZero, if_pos h]
      have h0 : p - w.length = 0 := by omega
      rw [h0]
      rfl
    · rw [padStartZero, if_neg h]
  · by_cases h : p ≤ w.length
    · rw [padStartZero, if_pos h]
      omega
    · rw [padStartZero, if_neg h]
      rw [String.length_append]
      show (List.replicate (p - w.length) '0').length + w.length = _
      rw [List.length_replicate]
      omega
  · rw [textLoop_spec pre suf p e inc hinc fuel s [] hle hfuel]
    simp [numberPart, if_pos hp]

/-- Witness for C5 at `padding = 3`, with `"10"` a width-2 numeric part. -/
theorem claim_C5_witness :
    padStartZero 3 "10" = "010" ∧
    textLoop "" "" (.fin (.ofInt 10)) 3 3 9 (.fin (.ofInt 1)) [] =
      some ["001", "004", "007", "010"] := by
  have h := claim_C5 3 (by decide) "10" 1 10 3 "" "" (by decide) (by decide) 9 (by decide)
  exact ⟨h.2.1.trans (by decide), h.2.2.2.2.2⟩

/-- Claim C7 (confirmed): when `start > end` the form-driven generator
returns the empty code list without the invalid-input alert, while the
text-parameter processor rejects with
`"Start of range cannot be greater than end."` and changes nothing. -/
theorem claim_C7 (s e : ℤ) (pre suf startS endS incS : String) (fuel : ℕ)
    (hs : parseIntJS startS = some s) (he : parseIntJS endS = some e)
    (hgt : e < s) (hfuel : 0 < fuel)
    (input manual : String) (a b : JNum)
    (h1 : jsTrim input ≠ "")
    (h2 : rangePair (resolveRange (processTextParams input)) = some (a, b))
    (h3 : JNum.gtB a b = true) :
    generateBarcodeData fuel pre startS endS suf incS = some (.codes []) ∧
    handleProcessText fuel input manual =
      some (.err "Start of range cannot be greater than end.") := by
  constructor
  · simp only [generateBarcodeData, hs, he]
    rw [formLoop_stop pre suf e _ s hgt fuel hfuel]
    rfl
  · exact handleProcessText_startGtEnd fuel input manual a b h1 h2 h3

/-- Witness for C7 at `start = 5 > end = 3` on both variants. -/
theorem claim_C7_witness :
    generateBarcodeData 5 "" "5" "3" "" "" = some (.codes []) ∧
    handleProcessText 5 "range: 5-3" "" =
      some (.err "Start of range cannot be greater than end.") :=
  claim_C7 5 3 "" "" "5" "3" "" 5 (by decide) (by decide) (by decide) (by decide)
    "range: 5-3" "" (.fin ⟨5, 1⟩) (.fin ⟨3, 1⟩) (by decide) (by decide) (by decide)

/-- Claim C4 (counterexample): the input `"range: -"` does not consist of two
hyphen-separated integers, yet the processor accepts it — `"-".split('-')`
gives `["", ""]`, `Number("")` coerces each empty component to `0`, the range
becomes `0..0`, and the code `"0"` is generated into the manual-entry field
instead of the claimed `"Invalid range"` rejection. -/
theorem claim_C4_counterexample :
    handleProcessText 9 "range: -" "" = some (.ok "0") := by decide

/-- Claim C4 (amended): the text-parameter processor validates in exactly
this order, rejecting at the first failing step with nothing generated and
the manual-entry content unchanged — (1) empty trimmed input; (2) `range`
absent/empty, or splitting it on `'-'` does not yield exactly two components
accepted by JS `Number` coercion (which accepts empty components as `0` and
non-integer decimals, so such ranges pass this step); (3) start > end; (4)
`parseInt(increment)` `NaN` or < 1; (5) `parseInt(padding)` `NaN` or < 0; and
on success it appends the generated codes to the manual-entry content. -/
theorem claim_C4 (fuel : ℕ) (input manual : String) :
    (jsTrim input = "" → handleProcessText fuel input manual =
      some (.err "Please enter processing parameters.")) ∧
    (jsTrim input ≠ "" → rangePair (resolveRange (processTextParams input)) = none →
      handleProcessText fuel input manual =
        some (.err "Invalid range. Please use the format: range: 1-100")) ∧
    (∀ a b, jsTrim input ≠ "" →
      rangePair (resolveRange (processTextParams input)) = some (a, b) →
      JNum.gtB a b = true →
      handleProcessText fuel input manual =
        some (.err "Start of range cannot be greater than end.")) ∧
    (∀ a b, jsTrim input ≠ "" →
      rangePair (resolveRange (processTextParams input)) = some (a, b) →
      JNum.gtB a b = false →
      (resolveIncrement (processTextParams input) = none ∨
        ∃ v, resolveIncrement (processTextParams input) = some v ∧ v < 1) →
      handleProcessText fuel input manual =
        some (.err "Increment must be a positive number.")) ∧
    (∀ a b inc, jsTrim input ≠ "" →
      rangePair (resolveRange (processTextParams input)) = some (a, b) →
      JNum.gtB a b = false →
      resolveIncrement (processTextParams input) = some inc → ¬ inc < 1 →
      (resolvePadding (processTextParams input) = none ∨
        ∃ v, resolvePadding (processTextParams input) = some v ∧ v < 0) →
      handleProcessText fuel input manual =
        some (.err "Padding must be a non-negative number.")) ∧
    (∀ a b inc pad, jsTrim input ≠ "" →
      rangePair (resolveRange (processTextParams input)) = some (a, b) →
      JNum.gtB a b = false →
      resolveIncrement (processTextParams input) = some inc → ¬ inc < 1 →
      resolvePadding (processTextParams input) = some pad → ¬ pad < 0 →
      handleProcessText fuel input manual =
        (textLoop ((lookupParam (processTextParams input) "prefix").getD "")
          ((lookupParam (processTextParams input) "suffix").getD "")
          b inc pad.toNat fuel a []).map
            (fun codes => .ok (appendManual manual codes))) :=
  ⟨fun h => handleProcessText_empty fuel input manual h,
   fun h1 h2 => handleProcessText_invalidRange fuel input manual h1 h2,
   fun a b h1 h2 h3 => handleProcessText_startGtEnd fuel input manual a b h1 h2 h3,
   fun a b h1 h2 h3 h4 => handleProcessText_badIncrement fuel input manual a b h1 h2 h3 h4,
   fun a b inc h1 h2 h3 h4 h5 h6 =>
     handleProcessText_badPadding fuel input manual a b inc h1 h2 h3 h4 h5 h6,
   fun a b inc pad h1 h2 h3 h4 h5 h6 h7 =>
     handleProcessText_success fuel input manual a b inc pad h1 h2 h3 h4 h5 h6 h7⟩

/-- Witness for the amended C4: the success path on
`"range: 1-3\npadding: 2"` with existing manual content `"A"` appends
`["01", "02", "03"]`. -/
theorem claim_C4_witness :
    handleProcessText 9 "range: 1-3\npadding: 2" "A" = some (.ok "A\n01\n02\n03") := by
  have h := (claim_C4 9 "range: 1-3\npadding: 2" "A").2.2.2.2.2
    (.fin ⟨1, 1⟩) (.fin ⟨3, 1⟩) 1 2 (by decide) (by decide) (by decide) (by decide)
    (by decide) (by decide) (by decide)
  exact h.trans (by decide)

/-- Claim C6 (counterexample): with the increment parameter present but
invalid (`"increment: abc"`), the text-parameter variant does not fall back
to increment 1 (which, as the second conjunct shows, would have produced the
codes 1, 2, 3) — it rejects the whole request. -/
theorem claim_C6_counterexample :
    handleProcessText 9 "range: 1-3\nincrement: abc" "" =
      some (.err "Increment must be a positive number.") ∧
    handleProcessText 9 "range: 1-3" "" = some (.ok "1\n2\n3") := by
  constructor <;> decide

/-- Claim C6 (amended): when the increment input is omitted (or empty), both
variants use increment 1, and the form-driven variant also falls back to 1
when the input fails to parse (`parseInt` gives `NaN`); but the
text-parameter variant rejects a present, nonempty, unparseable increment
with an error instead of defaulting. -/
theorem claim_C6 (fuel : ℕ) (pre startS endS suf incS : String)
    (hbad : parseIntJS incS = none)
    (input manual : String) (a b : JNum) (v : String)
    (h1 : jsTrim input ≠ "")
    (h2 : rangePair (resolveRange (processTextParams input)) = some (a, b))
    (h3 : JNum.gtB a b = false)
    (hv : lookupParam (processTextParams input) "increment" = some v)
    (hvne : ¬ v = "") (hvbad : parseIntJS v = none) :
    generateBarcodeData fuel pre startS endS suf incS =
      generateBarcodeData fuel pre startS endS suf "1" ∧
    (∀ kvs : List (String × String),
      lookupParam kvs "increment" = none → resolveIncrement kvs = some 1) ∧
    (∀ kvs : List (String × String),
      lookupParam kvs "increment" = some "" → resolveIncrement kvs = some 1) ∧
    handleProcessText fuel input manual =
      some (.err "Increment must be a positive number.") := by
  have hone : parseIntJS "1" = some 1 := by decide
  refine ⟨?_, fun kvs h => by simp [resolveIncrement, h],
    fun kvs h => by simp [resolveIncrement, h], ?_⟩
  · cases hs : parseIntJS startS <;> cases he : parseIntJS endS <;>
      simp [generateBarcodeData, hs, he, hbad, hone]
  · refine handleProcessText_badIncrement fuel input manual a b h1 h2 h3 (Or.inl ?_)
    simp [resolveIncrement, hv, hvne, hvbad]

/-- Witness for the amended C6: form variant with unparseable increment
`"abc"` behaves as increment 1; text variant with `"increment: abc"`
rejects. -/
theorem claim_C6_witness :
    generateBarcodeData 9 "" "1" "3" "" "abc" = generateBarcodeData 9 "" "1" "3" "" "1" ∧
    handleProcessText 9 "range: 1-3\nincrement: abc" "" =
      some (.err "Increment must be a positive number.") := by
  have h := claim_C6 9 "" "1" "3" "" "abc" (by decide)
    "range: 1-3\nincrement: abc" "" (.fin ⟨1, 1⟩) (.fin ⟨3, 1⟩) "abc"
    (by decide) (by decide) (by decide) (by decide) (by decide) (by decide)
  exact ⟨h.1, h.2.2.2⟩

/-- Claim C10 (counterexample): the text-parameter variant does not always
terminate, even though it rejects `increment < 1` — on
`"range: Infinity-Infinity"` every validation step passes (`Number`
coerces both components to `Infinity`, increment defaults to 1) and the
generation loop runs forever (`Infinity <= Infinity` stays true while
`Infinity + 1` stays `Infinity`), so no amount of fuel finishes it. -/
theorem claim_C10_counterexample :
    processTextDiverges "range: Infinity-Infinity" "" := by
  intro fuel
  rw [handleProcessText_success fuel "range: Infinity-Infinity" "" .inf .inf 1 0
    (by decide) (by decide) (by decide) (by decide) (by decide) (by decide) (by decide)]
  rw [textLoop_inf_diverges _ _ 1 _ fuel []]
  rfl

/-- Claim C10 (amended): the text-parameter variant rejects `increment < 1`
but is not guaranteed to terminate — its loop runs forever when both range
components coerce to `Infinity`; the form-driven generator passes a
successfully parsed negative increment through unchanged, so with
`start ≤ end` and increment string `"-2"` its loop never terminates; and
termination with increment ≥ 1 is guaranteed only for runs whose bounds stay
strictly within the double-exact integer range (`-2^53 < start` and
`end + increment < 2^53`, where this embedding's exact integers coincide
with the program's doubles) — beyond it JS `parseInt` can overflow to
`Infinity` and double addition can absorb the increment, neither of which
the exact-integer model captures, so no termination guarantee is claimed
there. -/
theorem claim_C10 (pre suf startS endS : String) (s e inc : ℤ) (p : ℕ)
    (hs : parseIntJS startS = some s) (he : parseIntJS endS = some e) :
    (∀ fuel, -9007199254740992 < s → s ≤ e → 1 ≤ inc →
      e + inc < 9007199254740992 →
      (e - s).toNat / inc.toNat + 1 < fuel →
      (formLoop pre suf e inc fuel s []).isSome = true ∧
      (textLoop pre suf (.fin (.ofInt e)) inc p fuel (.fin (.ofInt s)) []).isSome = true) ∧
    (∀ incS v, parseIntJS incS = some v → ¬ v = 0 → ∀ fuel,
      generateBarcodeData fuel pre startS endS suf incS =
        (formLoop pre suf e v fuel s []).map .codes) ∧
    (s ≤ e → ∀ fuel, generateBarcodeData fuel pre startS endS suf "-2" = none) ∧
    (∀ fuel input manual a b iv,
      jsTrim input ≠ "" →
      rangePair (resolveRange (processTextParams input)) = some (a, b) →
      JNum.gtB a b = false →
      resolveIncrement (processTextParams input) = some iv → iv < 1 →
      handleProcessText fuel input manual =
        some (.err "Increment must be a positive number.")) := by
  have hm2 : parseIntJS "-2" = some (-2) := by decide
  refine ⟨?_, ?_, ?_, ?_⟩
  · intro fuel _ h1 h2 _ h3
    rw [formLoop_spec pre suf e inc h2 fuel s [] h1 h3,
      textLoop_spec pre suf p e inc h2 fuel s [] h1 h3]
    exact ⟨rfl, rfl⟩
  · intro incS v hparse hv fuel
    simp [generateBarcodeData, hs, he, hparse, hv]
  · intro h1 fuel
    simp only [generateBarcodeData, hs, he, hm2]
    rw [if_neg (by omega)]
    rw [formLoop_neg_diverges pre suf e (-2) (by omega) fuel s [] h1]
    rfl
  · intro fuel input manual a b iv h1 h2 h3 h4 h5
    exact handleProcessText_badIncrement fuel input manual a b h1 h2 h3 (Or.inr ⟨iv, h4, h5⟩)

/-- Witness for the amended C10: within the double-exact range the run
`1..3` with increment 1 terminates, and with increment string `"-2"` the
form generator runs out of any amount of fuel (here 5). -/
theorem claim_C10_witness :
    (formLoop "" "" 3 1 9 1 []).isSome = true ∧
    generateBarcodeData 5 "" "1" "3" "" "-2" = none :=
  ⟨((claim_C10 "" "" "1" "3" 1 3 1 0 (by decide) (by decide)).1 9 (by decide)
      (by decide) (by decide) (by decide) (by decide)).1,
   (claim_C10 "" "" "1" "3" 1 3 1 0 (by decide) (by decide)).2.2.1 (by decide) 5⟩

/-- Claim C2 (confirmed): the duplicated-pair layout starts a new page every
3 codes (7 codes give pages of 3, 3, 1, in input order), and every code on a
page is drawn twice at the same x position: once at
`topY = pageHeight − topMargin − itemHeight − 15` and once at
`bottomY = topY − verticalGap`, which is strictly below `topY` when the gap
is positive. -/
theorem claim_C2 (p : StdParams) (codes : List String) (h7 : codes.length = 7)
    (hgV : 0 < p.gV) :
    ((stdLayout p codes).map List.length = [3, 3, 1]) ∧
    (stdLayout p codes).length = 3 ∧
    ((stdLayout p codes).map (fun pg => pg.map StdItem.code) = chunks 3 codes) ∧
    (∀ pg ∈ stdLayout p codes, ∀ it ∈ pg,
      it.topY = p.pH - p.mY - p.bH - 15 ∧
      it.bottomY = it.topY - p.gV ∧
      it.bottomY < it.topY ∧
      stdDraws it = [(it.x, it.topY), (it.x, it.bottomY)] ∧
      (stdDraws it).map Prod.fst = [it.x, it.x]) := by
  have h3 : (0 : ℕ) < 3 := by decide
  have hne : codes ≠ [] := by intro h; rw [h] at h7; simp at h7
  have e1 := chunks_cons 3 h3 codes hne
  have hl1 : (codes.drop 3).length = 4 := by rw [List.length_drop, h7]
  have hne1 : codes.drop 3 ≠ [] := by intro h; rw [h] at hl1; simp at hl1
  have e2 := chunks_cons 3 h3 (codes.drop 3) hne1
  have hl2 : ((codes.drop 3).drop 3).length = 1 := by rw [List.length_drop, hl1]
  have hne2 : (codes.drop 3).drop 3 ≠ [] := by intro h; rw [h] at hl2; simp at hl2
  have e3 := chunks_cons 3 h3 ((codes.drop 3).drop 3) hne2
  have hl3 : ((codes.drop 3).drop 3).drop 3 = [] := by
    apply List.eq_nil_of_length_eq_zero
    rw [List.length_drop, hl2]
  have echunks : chunks 3 codes =
      [codes.take 3, (codes.drop 3).take 3, ((codes.drop 3).drop 3).take 3] := by
    rw [e1, e2, e3, hl3]
    rfl
  refine ⟨?_, ?_, stdLayout_codes p codes, ?_⟩
  · rw [stdLayout, echunks]
    simp [stdPage_length, List.length_take, h7, hl1, hl2]
  · rw [stdLayout, echunks]
    rfl
  · intro pg hpg it hit
    obtain ⟨j, c, rfl⟩ := stdItem_mem p codes pg it hpg hit
    exact ⟨rfl, rfl, sub_lt_self _ hgV, rfl, rfl⟩

/-- Witness for C2: a concrete 7-code layout with a 1pt vertical gap. -/
theorem claim_C2_witness :
    (stdLayout ⟨612, 792, 144, 72, 36, 36, 200, 1⟩
      ["a", "b", "c", "d", "e", "f", "g"]).map List.length = [3, 3, 1] :=
  (claim_C2 ⟨612, 792, 144, 72, 36, 36, 200, 1⟩ ["a", "b", "c", "d", "e", "f", "g"]
    (by decide) one_pos).1

/-- Claim C3 (confirmed): the dense-grid layout fills a fixed 4-column ×
5-row grid of 20 slots per page in sequential input order (slot of in-page
index `i` is row `i / 4`, column `i % 4`), each item sized 80% of the cell
width and 50% of the cell height and centered within its cell; 25 codes give
exactly 2 pages of 20 and 5 codes, and the 21st code occupies slot (row 0,
col 0) of the second page. -/
theorem claim_C3 (codes : List String) (h25 : codes.length = 25) :
    ((unitedLayout codes).map List.length = [20, 5]) ∧
    (unitedLayout codes).length = 2 ∧
    ((unitedLayout codes).map (fun pg => pg.map UItem.code) = chunks 20 codes) ∧
    (∀ pg ∈ unitedLayout codes, ∀ it ∈ pg,
      it.w = unitedColWidth * 0.8 ∧
      it.h = unitedRowHeight * 0.5 ∧
      it.row < 5 ∧ it.col < 4 ∧
      it.x = unitedMargin + it.col * unitedColWidth + (unitedColWidth - it.w) / 2 ∧
      it.y = unitedMargin + it.row * unitedRowHeight + (unitedRowHeight - it.h) / 2 ∧
      it.x - (unitedMargin + it.col * unitedColWidth) =
        (unitedMargin + (it.col + 1) * unitedColWidth) - (it.x + it.w) ∧
      it.y - (unitedMargin + it.row * unitedRowHeight) =
        (unitedMargin + (it.row + 1) * unitedRowHeight) - (it.y + it.h)) ∧
    (∀ pg ∈ unitedLayout codes, ∀ i, ∀ h : i < pg.length,
      (pg.get ⟨i, h⟩).row = i / 4 ∧ (pg.get ⟨i, h⟩).col = i % 4) ∧
    (∀ h20 : 20 < codes.length, ∀ h1 : 1 < (unitedLayout codes).length,
      ∀ h0 : 0 < ((unitedLayout codes).get ⟨1, h1⟩).length,
      ((unitedLayout codes).get ⟨1, h1⟩).get ⟨0, h0⟩ =
          unitedItem 0 (codes.get ⟨20, h20⟩) ∧
        (((unitedLayout codes).get ⟨1, h1⟩).get ⟨0, h0⟩).row = 0 ∧
        (((unitedLayout codes).get ⟨1, h1⟩).get ⟨0, h0⟩).col = 0) := by
  have h20' : (0 : ℕ) < 20 := by decide
  have hne : codes ≠ [] := by intro h; rw [h] at h25; simp at h25
  have e1 := chunks_cons 20 h20' codes hne
  have hl1 : (codes.drop 20).length = 5 := by rw [List.length_drop, h25]
  have hne1 : codes.drop 20 ≠ [] := by intro h; rw [h] at hl1; simp at hl1
  have e2 := chunks_cons 20 h20' (codes.drop 20) hne1
  have hl2 : (codes.drop 20).drop 20 = [] := by
    apply List.eq_nil_of_length_eq_zero
    rw [List.length_drop, hl1]
  have echunks : chunks 20 codes = [codes.take 20, (codes.drop 20).take 20] := by
    rw [e1, e2, hl2]
    rfl
  refine ⟨?_, ?_, ?_, ?_, ?_, ?_⟩
  · rw [unitedLayout, echunks]
    simp [List.length_take, h25, hl1]
  · rw [unitedLayout, echunks]
    rfl
  · rw [unitedLayout, List.map_map]
    rw [show ((fun pg : List UItem => pg.map UItem.code) ∘
        fun pc : List String => pc.enum.map fun ic => unitedItem ic.1 ic.2) = id
      from by
        funext pc
        show (pc.enum.map fun ic => unitedItem ic.1 ic.2).map UItem.code = pc
        rw [List.map_map]
        rw [show (UItem.code ∘ fun ic : ℕ × String => unitedItem ic.1 ic.2) = Prod.snd
          from by funext ic; rfl]
        exact List.enum_map_snd pc]
    exact List.map_id _
  · intro pg hpg it hit
    obtain ⟨pc, hpc, rfl⟩ := unitedLayout_mem codes pg hpg
    have hpcl : pc.length ≤ 20 := chunks_mem_length 20 codes.length codes pc hpc
    obtain ⟨⟨i, hi⟩, rfl⟩ := List.mem_iff_get.mp hit
    have hipc : i < pc.length := by
      simpa [List.enum_length] using hi
    rw [unitedPage_get pc i hipc hi]
    obtain ⟨f1, f2, f3, f4, f5, f6, f7, f8⟩ := unitedItem_facts i (pc.get ⟨i, hipc⟩)
    exact ⟨f1, f2, by rw [f3]; omega, by rw [f4]; omega, f5, f6, f7, f8⟩
  · intro pg hpg i h
    obtain ⟨pc, hpc, rfl⟩ := unitedLayout_mem codes pg hpg
    have hipc : i < pc.length := by
      simpa [List.enum_length] using h
    rw [unitedPage_get pc i hipc h]
    exact ⟨rfl, rfl⟩
  · intro h20 h1 h0
    have hget1 : (unitedLayout codes).get ⟨1, h1⟩ =
        ((codes.drop 20).take 20).enum.map fun ic => unitedItem ic.1 ic.2 := by
      have hpages : unitedLayout codes =
          [(codes.take 20).enum.map fun ic => unitedItem ic.1 ic.2,
           ((codes.drop 20).take 20).enum.map fun ic => unitedItem ic.1 ic.2] := by
        rw [unitedLayout, echunks]
        rfl
      rw [List.get_of_eq hpages]
      rfl
    have hm : ((unitedLayout codes).get ⟨1, h1⟩).get ⟨0, h0⟩ =
        unitedItem 0 (codes.get ⟨20, h20⟩) := by
      rw [List.get_of_eq hget1 ⟨0, h0⟩]
      rw [unitedPage_get ((codes.drop 20).take 20) 0
        (by rw [List.length_take, List.length_drop, h25]; decide) _]
      congr 1
      rw [List.get_eq_getElem, List.get_eq_getElem, List.getElem_take, List.getElem_drop]
      simp
    exact ⟨hm, by rw [hm]; rfl, by rw [hm]; rfl⟩

/-- Witness for C3: 25 concrete codes. -/
theorem claim_C3_witness :
    ((unitedLayout ((List.range 25).map toString)).map List.length = [20, 5]) :=
  (claim_C3 ((List.range 25).map toString) (by decide)).1

/-! ## Validation-check and render-loop lemmas -/

lemma seqFold_none_iff (l : List (Option JNum)) :
    l.foldr (fun d acc => acc.bind fun r => d.map (· :: r)) (some []) = none ↔
      none ∈ l := by
  induction l with
  | nil => simp
  | cons d t ih =>
    rw [List.foldr_cons, List.mem_cons, ← ih]
    cases h : t.foldr (fun d acc => acc.bind fun r => d.map (· :: r)) (some []) with
    | none => cases d <;> simp
    | some r => cases d <;> simp

lemma svgZip_eq_filter (render : String → Bool) (codes : List String) :
    svgZipEntries render codes =
      (codes.filter render).map fun c => sanitizeFilename c ++ ".svg" := by
  induction codes with
  | nil => rfl
  | cons c t ih =>
    simp only [svgZipEntries] at ih ⊢
    by_cases h : render c <;> simp [List.filterMap_cons, List.filter_cons, h, ih]

lemma renderAll_done (render : String → Bool) (codes : List String)
    (h : ∀ c ∈ codes, render c = true) :
    renderAllOrAbort render codes = .done codes := by
  induction codes with
  | nil => rfl
  | cons c t ih =>
    rw [renderAllOrAbort, if_pos (h c (List.mem_cons_self c t)),
      ih fun x hx => h x (List.mem_cons_of_mem c hx)]
    rfl

lemma renderAll_failed (render : String → Bool) (good : List String) (bad : String)
    (rest : List String) (hg : ∀ c ∈ good, render c = true) (hb : render bad = false) :
    renderAllOrAbort render (good ++ bad :: rest) = .failed bad := by
  induction good with
  | nil =>
    rw [List.nil_append, renderAllOrAbort, if_neg (by simp [hb])]
  | cons c t ih =>
    rw [List.cons_append, renderAllOrAbort, if_pos (hg c (List.mem_cons_self c t)),
      ih fun x hx => hg x (List.mem_cons_of_mem c hx)]
    rfl

/-- Claim C8 (counterexample): with the page-width field set to `"Infinity"`,
the parsed page width is the non-finite `Infinity` (`parseFloat` accepts it,
and `Infinity * 72 = Infinity`), yet the `isNaN` validation does not abort —
the export proceeds past the check.  The claimed finite-number validation
does not exist. -/
theorem claim_C8_counterexample :
    (stdExportCheck "Infinity" "11" "2" "1" "0.5" "0.5" "3" "1").isAborted = false ∧
    stdParsedDims "Infinity" "11" "2" "1" "0.5" "0.5" "3" "1" =
      [some .inf, some (.fin ⟨792, 1⟩), some (.fin ⟨2, 1⟩), some (.fin ⟨1, 1⟩),
       some (.fin ⟨360, 10⟩), some (.fin ⟨360, 10⟩), some (.fin ⟨3, 1⟩),
       some (.fin ⟨1, 1⟩)] ∧
    stdExportRun (fun _ => true) ["A"] "Infinity" "11" "2" "1" "0.5" "0.5" "3" "1" =
      .done ["A"] := by
  refine ⟨by decide, by decide, by decide⟩

/-- Claim C8 (amended): the standard export validates the eight parsed layout
settings with `isNaN` only, before the document is created: it aborts with
the alert message exactly when some parsed value is `NaN` (no rendering
happens in that case), but non-finite `Infinity` values pass the check. -/
theorem claim_C8 (pwS phS bwS bhS mxS myS ghS gvS : String) (codes : List String)
    (render : String → Bool) :
    ((stdExportCheck pwS phS bwS bhS mxS myS ghS gvS).isAborted = true ↔
      none ∈ stdParsedDims pwS phS bwS bhS mxS myS ghS gvS) ∧
    (none ∈ stdParsedDims pwS phS bwS bhS mxS myS ghS gvS →
      stdExportCheck pwS phS bwS bhS mxS myS ghS gvS =
        .aborted "Please ensure all layout settings are valid numbers.") ∧
    (codes ≠ [] → none ∈ stdParsedDims pwS phS bwS bhS mxS myS ghS gvS →
      stdExportRun render codes pwS phS bwS bhS mxS myS ghS gvS =
        .failed "Please ensure all layout settings are valid numbers.") := by
  have key := seqFold_none_iff (stdParsedDims pwS phS bwS bhS mxS myS ghS gvS)
  have habort : none ∈ stdParsedDims pwS phS bwS bhS mxS myS ghS gvS →
      stdExportCheck pwS phS bwS bhS mxS myS ghS gvS =
        .aborted "Please ensure all layout settings are valid numbers." := by
    intro hmem
    simp only [stdExportCheck]
    rw [key.mpr hmem]
  have hproceed : ¬ none ∈ stdParsedDims pwS phS bwS bhS mxS myS ghS gvS →
      (stdExportCheck pwS phS bwS bhS mxS myS ghS gvS).isAborted = false := by
    intro hmem
    simp only [stdExportCheck]
    cases h : (stdParsedDims pwS phS bwS bhS mxS myS ghS gvS).foldr
        (fun d acc => acc.bind fun r => d.map (· :: r)) (some []) with
    | none => exact absurd (key.mp h) hmem
    | some ds => rfl
  refine ⟨⟨fun hab => ?_, fun hmem => by rw [habort hmem]; rfl⟩, habort, ?_⟩
  · by_contra hmem
    rw [hproceed hmem] at hab
    exact Bool.false_ne_true hab
  · intro hne hmem
    rw [stdExportRun, if_neg (by simpa using hne), habort hmem]

/-- Witness for the amended C8: an unparseable page width (`"x"`) aborts the
export with the alert message before anything is rendered. -/
theorem claim_C8_witness :
    stdExportRun (fun _ => true) ["A"] "x" "11" "2" "1" "0.5" "0.5" "3" "1" =
      .failed "Please ensure all layout settings are valid numbers." :=
  (claim_C8 "x" "11" "2" "1" "0.5" "0.5" "3" "1" ["A"] (fun _ => true)).2.2
    (by decide) (by decide)

/-- Claim C9 (counterexample): on the standard PDF export path a single code
that fails to render is fatal — with `"ZZ"` failing among
`["A1", "ZZ", "A3"]` the whole export aborts at `"ZZ"` (nothing is saved and
`"A3"` is never processed), contradicting the claim that every export path
processes the remaining codes. -/
theorem claim_C9_counterexample :
    stdExportRun (fun c => c != "ZZ") ["A1", "ZZ", "A3"]
      "8.5" "11" "2" "1" "0.5" "0.5" "3" "1" = .failed "ZZ" ∧
    renderAllOrAbort (fun c => c != "ZZ") ["A1", "ZZ", "A3"] = .failed "ZZ" := by
  refine ⟨by decide, by decide⟩

/-- Claim C9 (amended): per-item rendering failures are non-fatal on the
preview path (each of the first 10 codes yields an item, failures marked
inline) and on the SVG-ZIP path (failed codes are skipped, all others still
produce their entries, in order); but on both PDF export paths `JsBarcode`
is called without `try`/`catch`, so the first failing code aborts the whole
export — it succeeds only when every code renders. -/
theorem claim_C9 (render : String → Bool) (codes : List String)
    (good : List String) (bad : String) (rest : List String)
    (hg : ∀ c ∈ good, render c = true) (hb : render bad = false)
    (pwS phS bwS bhS mxS myS ghS gvS : String) (dims : List JNum)
    (hcheck : stdExportCheck pwS phS bwS bhS mxS myS ghS gvS = .proceeds dims) :
    (previewItems render codes).length = min 10 codes.length ∧
    (∀ c ∈ codes.take 10, render c = false →
      PreviewItem.invalidItem c ∈ previewItems render codes) ∧
    (∀ c ∈ codes.take 10, render c = true →
      PreviewItem.okItem c ∈ previewItems render codes) ∧
    svgZipEntries render codes =
      (codes.filter render).map (fun c => sanitizeFilename c ++ ".svg") ∧
    ((∀ c ∈ codes, render c = true) → renderAllOrAbort render codes = .done codes) ∧
    renderAllOrAbort render (good ++ bad :: rest) = .failed bad ∧
    stdExportRun render (good ++ bad :: rest) pwS phS bwS bhS mxS myS ghS gvS =
      .failed bad := by
  refine ⟨by simp [previewItems, List.length_take], ?_, ?_,
    svgZip_eq_filter render codes, renderAll_done render codes,
    renderAll_failed render good bad rest hg hb, ?_⟩
  · intro c hc hr
    exact List.mem_map.mpr ⟨c, hc, by simp [hr]⟩
  · intro c hc hr
    exact List.mem_map.mpr ⟨c, hc, by simp [hr]⟩
  · rw [stdExportRun, if_neg (by simp), hcheck]
    exact renderAll_failed render good bad rest hg hb

/-- Witness for the amended C9 at a failing middle code on the standard
export path. -/
theorem claim_C9_witness :
    stdExportRun (fun c => c != "ZZ") (["A1"] ++ "ZZ" :: ["A3"])
      "8.5" "11" "2" "1" "0.5" "0.5" "3" "1" = .failed "ZZ" :=
  (claim_C9 (fun c => c != "ZZ") [] ["A1"] "ZZ" ["A3"] (by decide) (by decide)
    "8.5" "11" "2" "1" "0.5" "0.5" "3" "1"
    [.fin ⟨6120, 10⟩, .fin ⟨792, 1⟩, .fin ⟨2, 1⟩, .fin ⟨1, 1⟩,
     .fin ⟨360, 10⟩, .fin ⟨360, 10⟩, .fin ⟨3, 1⟩, .fin ⟨1, 1⟩]
    (by decide)).2.2.2.2.2.2

end BarcodePro
